import Mathlib

/-!
Verification development for the `bug` crate: a library generating pre-filled
GitHub issue URLs from named templates with `{placeholder}` substitution.

Strings are modelled as `List Char` (`Str`), and the URL encoder operates on
the UTF-8 byte sequence (`List Nat`, each entry a byte), mirroring the Rust
code which iterates `input.bytes()`.  Rust's Unicode-aware character
predicates (`char::is_alphanumeric`, `char::is_whitespace`) are modelled on
their ASCII fragments, which is the fragment exercised by every template and
example in the repository.
-/

/-- Strings modelled as lists of characters. -/
abbrev Str := List Char

/-- Bytes of the ASCII-only strings used in concrete examples. -/
def asciiBytes (s : String) : List Nat := s.data.map Char.toNat

/-- ASCII fragment of Rust `char::is_whitespace` (Unicode White_Space):
for code points below 0x80 these are exactly 0x09-0x0D and 0x20. -/
def isRustWs (c : Char) : Bool :=
  c = ' ' || c = '\t' || c = '\n' || c = '\x0b' || c = '\x0c' || c = '\r'

/-- `str::trim_start`: drop leading whitespace. -/
def trimStart : Str → Str
  | [] => []
  | c :: rest => if isRustWs c then trimStart rest else c :: rest

/-- `str::trim_end`: drop trailing whitespace. -/
def trimEnd (s : Str) : Str := (trimStart s.reverse).reverse

/-- `str::trim`: drop whitespace at both ends. -/
def trim (s : Str) : Str := trimEnd (trimStart s)

/-- `[T]::join(sep)` / `Vec::join`: concatenate with a separator. -/
def joinSep (sep : Str) : List Str → Str
  | [] => []
  | [x] => x
  | x :: xs => x ++ sep ++ joinSep sep xs

/- ===== URL encoder (src/url_encode.rs) ===== -/

/-- Unreserved bytes of RFC 3986 as matched by `encode`:
ASCII letters, digits, `-`, `.`, `_`, `~`. -/
def isUnreservedByte (b : Nat) : Bool :=
  (0x41 ≤ b && b ≤ 0x5A) || (0x61 ≤ b && b ≤ 0x7A) ||
  (0x30 ≤ b && b ≤ 0x39) || b = 0x2D || b = 0x2E || b = 0x5F || b = 0x7E

/-- Uppercase hexadecimal digit, as produced by the `{:02X}` format. -/
def hexDigitChar (n : Nat) : Char :=
  if n < 10 then Char.ofNat (48 + n) else Char.ofNat (55 + n)

/-- Encoding of one byte by `url_encode::encode`: unreserved bytes pass
through, a space becomes `+`, anything else becomes `%` plus two uppercase
hex digits. -/
def encodeByte (b : Nat) : Str :=
  if isUnreservedByte b then [Char.ofNat b]
  else if b = 0x20 then ['+']
  else ['%', hexDigitChar (b / 16 % 16), hexDigitChar (b % 16)]

/-- `url_encode::encode`, at the byte level: the concatenation of the
per-byte encodings (the Rust loop pushes each byte's encoding in turn). -/
def encode : List Nat → Str
  | [] => []
  | b :: rest => encodeByte b ++ encode rest

/-- UTF-8 encoding of one character (the byte sequence Rust's `str::bytes`
yields for it). -/
def charUtf8 (c : Char) : List Nat :=
  let n := c.toNat
  if n < 0x80 then [n]
  else if n < 0x800 then [0xC0 + n / 0x40, 0x80 + n % 0x40]
  else if n < 0x10000 then
    [0xE0 + n / 0x1000, 0x80 + n / 0x40 % 0x40, 0x80 + n % 0x40]
  else
    [0xF0 + n / 0x40000, 0x80 + n / 0x1000 % 0x40,
     0x80 + n / 0x40 % 0x40, 0x80 + n % 0x40]

/-- The UTF-8 bytes of a string. -/
def utf8Bytes : Str → List Nat
  | [] => []
  | c :: rest => charUtf8 c ++ utf8Bytes rest

/-- `url_encode::encode` on a string: encode its UTF-8 bytes byte-wise. -/
def encodeStr (s : Str) : Str := encode (utf8Bytes s)

/- ===== Placeholder scanner (extract_placeholders, lib.rs 599-627) ===== -/

/-- ASCII fragment of Rust `char::is_alphanumeric`, plus underscore: the
characters allowed inside a `{placeholder}` name. -/
def isIdentCh (c : Char) : Bool := c.isAlphanum || c = '_'

/-- The inner loop of `extract_placeholders`: after an opening `{`, consume
characters accumulating the candidate name.  Returns
`(found_end, accumulated name, remaining input)`: a closing `}` stops with
`found_end = true`; an identifier character is accumulated; any other
character aborts, clearing the accumulator (scanning resumes after it). -/
def scanPh : List Char → Str → Bool × Str × List Char
  | [], acc => (false, acc, [])
  | c :: rest, acc =>
    if c = '}' then (true, acc, rest)
    else if isIdentCh c then scanPh rest (acc ++ [c])
    else (false, [], rest)

/-- The outer loop of `extract_placeholders`, fuelled (each step consumes at
least one input character, so fuel `= input length` never runs out).  `acc`
is the vector of placeholders pushed so far; a scanned name is pushed when
the closing brace was found, the name is non-empty, and it is not already
present. -/
def extractGo : Nat → List Char → List Str → List Str
  | 0, _, acc => acc
  | _ + 1, [], acc => acc
  | fuel + 1, c :: rest, acc =>
    if c = '{' then
      let r := scanPh rest []
      let acc' :=
        if r.1 = true ∧ r.2.1 ≠ [] ∧ r.2.1 ∉ acc then acc ++ [r.2.1] else acc
      extractGo fuel r.2.2 acc'
    else extractGo fuel rest acc

/-- `extract_placeholders` (lib.rs 599-627). -/
def extract_placeholders (s : Str) : List Str := extractGo s.length s []

/-- The same scan without the dedup check: every well-formed placeholder
occurrence, in scan order, duplicates included. -/
def rawScanGo : Nat → List Char → List Str
  | 0, _ => []
  | _ + 1, [] => []
  | fuel + 1, c :: rest =>
    if c = '{' then
      let r := scanPh rest []
      if r.1 = true ∧ r.2.1 ≠ [] then r.2.1 :: rawScanGo fuel r.2.2
      else rawScanGo fuel r.2.2
    else rawScanGo fuel rest

/-- All well-formed placeholder occurrences of `s`, in scan order. -/
def rawScan (s : Str) : List Str := rawScanGo s.length s

/-- Keep the first occurrence of each element not already in `seen`,
dropping later duplicates. -/
def dedupGo (seen : List Str) : List Str → List Str
  | [] => []
  | x :: xs => if x ∈ seen then dedupGo seen xs else x :: dedupGo (seen ++ [x]) xs

/- ===== Basic lemmas ===== -/

theorem scanPh_rest_len : ∀ (l : List Char) (acc : Str),
    (scanPh l acc).2.2.length ≤ l.length := by
  intro l
  induction l with
  | nil => intro acc; simp [scanPh]
  | cons c rest ih =>
    intro acc
    simp only [scanPh]
    by_cases h1 : c = '}'
    · simp [h1]
    · by_cases h2 : isIdentCh c
      · simp [h1, h2]
        exact Nat.le_succ_of_le (ih (acc ++ [c]))
      · simp [h1, h2]

/-- Fuel irrelevance for the outer scanner loop: any fuel at least the input
length gives the same result, so `extract_placeholders`' choice of fuel is
harmless. -/
theorem extractGo_fuel_irrel : ∀ (f g : Nat) (s : List Char) (acc : List Str),
    s.length ≤ f → s.length ≤ g → extractGo f s acc = extractGo g s acc := by
  intro f
  induction f with
  | zero =>
    intro g s acc hf _
    have : s = [] := List.length_eq_zero.mp (Nat.le_zero.mp hf)
    subst this
    cases g <;> simp [extractGo]
  | succ f ih =>
    intro g s acc hf hg
    cases s with
    | nil => cases g <;> simp [extractGo]
    | cons c rest =>
      cases g with
      | zero => simp at hg
      | succ g =>
        simp only [extractGo]
        by_cases hc : c = '{'
        · simp only [hc, if_pos rfl]
          have hlen := scanPh_rest_len rest ([] : Str)
          simp only [List.length_cons] at hf hg
          exact ih g _ _ (Nat.le_trans hlen (Nat.lt_succ_iff.mp hf))
            (Nat.le_trans hlen (Nat.lt_succ_iff.mp hg))
        · simp only [if_neg hc]
          simp only [List.length_cons] at hf hg
          exact ih g rest acc (Nat.lt_succ_iff.mp hf) (Nat.lt_succ_iff.mp hg)

theorem extractGo_eq_dedup_rawScanGo :
    ∀ (f : Nat) (s : List Char) (acc : List Str),
    extractGo f s acc = acc ++ dedupGo acc (rawScanGo f s) := by
  intro f
  induction f with
  | zero => intro s acc; simp [extractGo, rawScanGo, dedupGo]
  | succ f ih =>
    intro s acc
    cases s with
    | nil => simp [extractGo, rawScanGo, dedupGo]
    | cons c rest =>
      simp only [extractGo, rawScanGo]
      by_cases hc : c = '{'
      · simp only [hc, eq_self_iff_true, if_true]
        by_cases hw : (scanPh rest []).1 = true ∧ (scanPh rest []).2.1 ≠ []
        · by_cases hm : (scanPh rest []).2.1 ∈ acc
          · have : ¬ ((scanPh rest []).1 = true ∧ (scanPh rest []).2.1 ≠ [] ∧
                (scanPh rest []).2.1 ∉ acc) := by
              intro h; exact h.2.2 hm
            rw [if_neg this, if_pos hw, ih]
            simp [dedupGo, hm]
          · have : (scanPh rest []).1 = true ∧ (scanPh rest []).2.1 ≠ [] ∧
                (scanPh rest []).2.1 ∉ acc := ⟨hw.1, hw.2, hm⟩
            rw [if_pos this, if_pos hw, ih]
            simp [dedupGo, hm]
        · have : ¬ ((scanPh rest []).1 = true ∧ (scanPh rest []).2.1 ≠ [] ∧
              (scanPh rest []).2.1 ∉ acc) := by
            intro h; exact hw ⟨h.1, h.2.1⟩
          rw [if_neg this, if_neg hw, ih]
      · simp only [if_neg hc]
        exact ih rest acc

/-- The scanner equals the raw occurrence scan with first-occurrence
deduplication applied. -/
theorem extract_eq_dedup_rawScan (s : Str) :
    extract_placeholders s = dedupGo [] (rawScan s) := by
  have h := extractGo_eq_dedup_rawScanGo s.length s []
  simpa [extract_placeholders, rawScan] using h

theorem dedupGo_sub : ∀ (l : List Str) (seen : List Str) (x : Str),
    x ∈ dedupGo seen l → x ∈ l := by
  intro l
  induction l with
  | nil => intro seen x h; simp [dedupGo] at h
  | cons y ys ih =>
    intro seen x h
    simp only [dedupGo] at h
    by_cases hy : y ∈ seen
    · rw [if_pos hy] at h
      exact List.mem_cons_of_mem y (ih seen x h)
    · rw [if_neg hy] at h
      rcases List.mem_cons.mp h with h1 | h1
      · exact h1 ▸ List.mem_cons_self x ys
      · exact List.mem_cons_of_mem y (ih (seen ++ [y]) x h1)

theorem dedupGo_not_seen : ∀ (l : List Str) (seen : List Str) (x : Str),
    x ∈ dedupGo seen l → x ∉ seen := by
  intro l
  induction l with
  | nil => intro seen x h; simp [dedupGo] at h
  | cons y ys ih =>
    intro seen x h
    simp only [dedupGo] at h
    by_cases hy : y ∈ seen
    · rw [if_pos hy] at h
      exact ih seen x h
    · rw [if_neg hy] at h
      rcases List.mem_cons.mp h with h1 | h1
      · exact h1 ▸ hy
      · intro hx
        exact ih (seen ++ [y]) x h1 (List.mem_append_left [y] hx)

theorem dedupGo_nodup : ∀ (l : List Str) (seen : List Str),
    (dedupGo seen l).Nodup := by
  intro l
  induction l with
  | nil => intro seen; simp [dedupGo]
  | cons y ys ih =>
    intro seen
    simp only [dedupGo]
    by_cases hy : y ∈ seen
    · rw [if_pos hy]; exact ih seen
    · rw [if_neg hy]
      refine List.nodup_cons.mpr ⟨?_, ih (seen ++ [y])⟩
      intro hmem
      exact dedupGo_not_seen ys (seen ++ [y]) y hmem
        (List.mem_append_right seen (List.mem_singleton.mpr rfl))

theorem rawScanGo_ne_nil : ∀ (f : Nat) (s : List Char),
    [] ∉ rawScanGo f s := by
  intro f
  induction f with
  | zero => intro s; simp [rawScanGo]
  | succ f ih =>
    intro s
    cases s with
    | nil => simp [rawScanGo]
    | cons c rest =>
      simp only [rawScanGo]
      by_cases hc : c = '{'
      · simp only [hc, if_pos rfl]
        by_cases hw : (scanPh rest []).1 = true ∧ (scanPh rest []).2.1 ≠ []
        · rw [if_pos hw]
          intro h
          rcases List.mem_cons.mp h with h1 | h1
          · exact hw.2 h1.symm
          · exact ih _ h1
        · rw [if_neg hw]; exact ih _
      · rw [if_neg hc]; exact ih rest

/- ===== Data model (lib.rs) ===== -/

/-- `IssueTemplate` (lib.rs 258-266): title and body with placeholders,
plus GitHub labels.  Immutable; filling returns a new value. -/
structure IssueTemplate where
  title : Str
  body : Str
  labels : List Str
deriving DecidableEq

/-- `TemplateFile` (lib.rs 295-301): raw content (first line is the title,
the rest the body) plus labels. -/
structure TemplateFile where
  content : Str
  labels : List Str
deriving DecidableEq

/-- `FxHashMap<String, String>` of parameters, modelled as an association
list: unique keys (where a claim needs it), unspecified iteration order. -/
abbrev Params := List (Str × Str)

/-- `HashMap::contains_key`. -/
def hasKey (params : Params) (k : Str) : Bool := params.any (fun kv => kv.1 == k)

/-- `HashMap::get`: lookup by key (unique keys make the list order
irrelevant here). -/
def lookupA {α : Type} : List (Str × α) → Str → Option α
  | [], _ => none
  | kv :: rest, k => if kv.1 = k then some kv.2 else lookupA rest k

/-- `HashMap::remove`, as used to model dropping one parameter key. -/
def eraseKey (params : Params) (k : Str) : Params :=
  params.filter (fun kv => !(kv.1 == k))

/- ===== str::replace and fill_params (lib.rs 551-566) ===== -/

/-- One fuelled pass of Rust `str::replace`: leftmost, non-overlapping
replacement of every occurrence of `pat` by `rep`.  Fuel `= input length`
suffices because every step consumes at least one character (`pat` is never
empty where this is used: it is always `{` ++ key ++ `}`). -/
def replaceGo (pat rep : Str) : Nat → Str → Str
  | 0, s => s
  | fuel + 1, s =>
    if pat ≠ [] ∧ pat.isPrefixOf s = true then
      rep ++ replaceGo pat rep fuel (s.drop pat.length)
    else
      match s with
      | [] => []
      | c :: rest => c :: replaceGo pat rep fuel rest

/-- Rust `str::replace(pat, rep)` (for the non-empty patterns this library
uses). -/
def replaceAll (s pat rep : Str) : Str := replaceGo pat rep s.length s

/-- Whether `pat` occurs as a contiguous substring of `s`. -/
def hasSubstr : Str → Str → Bool
  | s, pat =>
    pat.isPrefixOf s ||
      match s with
      | [] => false
      | _ :: rest => hasSubstr rest pat

/-- The literal placeholder token `format!("{{{}}}", key)`, i.e.
`{` ++ key ++ `}`. -/
def placeholderOf (k : Str) : Str := '{' :: (k ++ ['}'])

/-- `IssueTemplate::fill_params` (lib.rs 551-566): for each map entry, in
iteration order, replace every occurrence of `{key}` in title and body with
the value; the labels are copied unchanged.  The Rust loop updates title and
body together per key; since the two strings evolve independently this is
the same as one fold per field. -/
def IssueTemplate.fill_params (t : IssueTemplate) (params : Params) : IssueTemplate :=
  { title := params.foldl (fun s kv => replaceAll s (placeholderOf kv.1) kv.2) t.title
    body := params.foldl (fun s kv => replaceAll s (placeholderOf kv.1) kv.2) t.body
    labels := t.labels }

/- ===== TemplateFile::parse (lib.rs 370-393) ===== -/

/-- Strip one trailing carriage return (Rust `str::lines` removes a `\r`
standing immediately before the `\n`). -/
def stripCr (l : Str) : Str := if l.getLast? = some '\r' then l.dropLast else l

/-- Worker for `str::lines`: `cur` is the current line being accumulated.
A final line not terminated by `\n` is yielded as-is (its `\r`, if any,
is kept, as in Rust); a terminating `\n` at the very end produces no
further empty line. -/
def linesGo : Str → List Char → List Str
  | cur, [] => [cur]
  | cur, c :: rest =>
    if c = '\n' then
      stripCr cur :: (if rest = [] then [] else linesGo [] rest)
    else linesGo (cur ++ [c]) rest

/-- Rust `str::lines().collect()`: empty input gives no lines. -/
def rustLines (s : Str) : List Str :=
  match s with
  | [] => []
  | _ => linesGo [] s

/-- `TemplateFile::parse` (lib.rs 370-393): error if there are no lines;
title is the first line trimmed, error if that is empty; body is the
remaining lines joined with `\n` and trimmed (empty if there is only one
line — joining the empty list gives the empty string, which trims to
itself, matching the Rust special case). -/
def TemplateFile.parse (tf : TemplateFile) : Except Str IssueTemplate :=
  match rustLines tf.content with
  | [] => Except.error "Template file is empty".data
  | first :: rest =>
    let title := trim first
    if title = [] then
      Except.error "Template must have a title on the first line".data
    else
      Except.ok { title := title
                  body := trim (joinSep ['\n'] rest)
                  labels := tf.labels }

/- ===== TemplateFile::validate_params (lib.rs 426-442) ===== -/

/-- `TemplateFile::validate_params` (lib.rs 426-442): first loop reports the
first placeholder (in scan order) without a matching key; second loop
reports the first parameter key (in map iteration order) that is not a
placeholder; otherwise ok. -/
def TemplateFile.validate_params (tf : TemplateFile) (params : Params) :
    Except Str Unit :=
  let placeholders := extract_placeholders tf.content
  match placeholders.find? (fun ph => !(hasKey params ph)) with
  | some ph => Except.error ("Missing required parameter: ".data ++ ph)
  | none =>
    match params.find? (fun kv => !(placeholders.contains kv.1)) with
    | some kv => Except.error ("Unused parameter: ".data ++ kv.1)
    | none => Except.ok ()

/-- `IssueTemplate::from_template_file` (lib.rs 497-501): validate, parse,
then fill. -/
def IssueTemplate.from_template_file (tf : TemplateFile) (params : Params) :
    Except Str IssueTemplate := do
  tf.validate_params params
  let parsed ← tf.parse
  pure (parsed.fill_params params)

/- ===== Configuration and URL builder (lib.rs 197-209, 1046-1081) ===== -/

/-- `HyperlinkMode` (lib.rs 230-238). -/
inductive HyperlinkMode where
  | Auto
  | Always
  | Never
deriving DecidableEq

/-- `BugReportConfig` (lib.rs 197-209).  The two template maps are
association lists with unique keys; a `BugReportHandle` is exactly a carried
`BugReportConfig`, so handle methods are modelled as functions of the
configuration. -/
structure BugReportConfig where
  github_owner : Str
  github_repo : Str
  templates : List (Str × IssueTemplate)
  template_files : List (Str × TemplateFile)
  use_hyperlinks : HyperlinkMode

/-- The base URL `https://github.com/{owner}/{repo}/issues/new`. -/
def baseUrl (owner repo : Str) : Str :=
  "https://github.com/".data ++ owner ++ '/' :: (repo ++ "/issues/new".data)

/-- The query-parameter segments pushed by `generate_url` (lib.rs
1060-1073): `title=`, `body=`, `labels=` in that order, each only when the
field is non-empty, values URL-encoded, labels joined with `,` before
encoding. -/
def queryParams (t : IssueTemplate) : List Str :=
  (if t.title = [] then [] else ["title=".data ++ encodeStr t.title]) ++
  (if t.body = [] then [] else ["body=".data ++ encodeStr t.body]) ++
  (if t.labels = [] then []
   else ["labels=".data ++ encodeStr (joinSep [','] t.labels)])

/-- URL assembly of `generate_url` (lib.rs 1055-1080): base plus, when any
query segment exists, `?` and the segments joined with `&`. -/
def buildUrl (owner repo : Str) (t : IssueTemplate) : Str :=
  let qp := queryParams t
  if qp = [] then baseUrl owner repo
  else baseUrl owner repo ++ '?' :: joinSep ['&'] qp

/-- `BugReportHandle::generate_url` (lib.rs 1046-1081): inline template map
first, then the file-backed map (validate + parse + fill), else a not-found
error; the filled template is rendered by the URL builder. -/
def generate_url (cfg : BugReportConfig) (name : Str) (params : Params) :
    Except Str Str := do
  let filled ←
    match lookupA cfg.templates name with
    | some t => pure (t.fill_params params)
    | none =>
      match lookupA cfg.template_files name with
      | some tf => IssueTemplate.from_template_file tf params
      | none =>
        Except.error ("Template '".data ++ name ++ "' not found".data)
  pure (buildUrl cfg.github_owner cfg.github_repo filled)

/- ===== Process-wide singleton (lib.rs 93, 865-868, 899-908) ===== -/

/-- The process-wide `CONFIG` cell: empty until the one successful commit. -/
abbrev GlobalConfig := Option BugReportConfig

/-- `BugReportConfigBuilder::build` (lib.rs 865-868 / 899-908): commit the
built configuration into the global cell.  `OnceCell::set` (and the explicit
`no_std` branch) stores the value only when the cell is empty; otherwise it
errors and leaves the stored value untouched.  Returns (result, new cell
state). -/
def buildCommit (cfg : BugReportConfig) (st : GlobalConfig) :
    Except Str Unit × GlobalConfig :=
  match st with
  | some _ => (Except.error "Bug reporting already initialized".data, st)
  | none => (Except.ok (), some cfg)

/- ===== generate_github_url (lib.rs 1289-1326) ===== -/

/-- `generate_github_url` (lib.rs 1289-1326): the global-configuration
function; its body past the `CONFIG.get()` is a textual duplicate of
`BugReportHandle::generate_url` and is embedded here as such a duplicate. -/
def generate_github_url (st : GlobalConfig) (name : Str) (params : Params) :
    Except Str Str :=
  match st with
  | none =>
    Except.error "Bug reporting not initialized. Call bug_rs::init() first.".data
  | some config => do
    let filled ←
      match lookupA config.templates name with
      | some t => pure (t.fill_params params)
      | none =>
        match lookupA config.template_files name with
        | some tf => IssueTemplate.from_template_file tf params
        | none =>
          Except.error ("Template '".data ++ name ++ "' not found".data)
    pure (buildUrl config.github_owner config.github_repo filled)

/- ===== Reporter (lib.rs 1194-1226) ===== -/

/-- `create_terminal_hyperlink` (lib.rs 1367-1369). -/
def create_terminal_hyperlink (url text : Str) : Str :=
  "\x1b]8;;".data ++ url ++ "\x1b\\".data ++ text ++ "\x1b]8;;\x1b\\".data

/-- Decimal rendering of the `line!()` number. -/
def natRepr (n : Nat) : Str := (Nat.repr n).data

/-- The diagnostic header line `🐛 BUG ENCOUNTERED in file:line`. -/
def reportHeader (file : Str) (line : Nat) : Str :=
  "🐛 BUG ENCOUNTERED in ".data ++ file ++ ':' :: (natRepr line ++ ['\n'])

/-- `BugReportHandle::report_bug_with_output` (lib.rs 1194-1226).  The sink
is modelled by returning, next to the result string, the list of strings the
method writes to it in order; `probe` is the value the external
`supports_hyperlinks()` capability probe would return (consulted only under
`HyperlinkMode::Auto`).  On success the URL is returned; on failure the
header, an error line and a blank line are written and the empty string is
returned. -/
def report_bug_with_output (cfg : BugReportConfig) (name : Str)
    (params : Params) (file : Str) (line : Nat) (probe : Bool) :
    Str × List Str :=
  match generate_url cfg name params with
  | Except.ok url =>
    let paramLines :=
      if params = [] then []
      else "   Parameters:\n".data ::
        params.map (fun kv => "     ".data ++ kv.1 ++ ": ".data ++ kv.2 ++ ['\n'])
    let shouldH :=
      match cfg.use_hyperlinks with
      | HyperlinkMode.Auto => probe
      | HyperlinkMode.Always => true
      | HyperlinkMode.Never => false
    let urlLine :=
      if shouldH then
        "   ".data ++ create_terminal_hyperlink url "File a bug report".data ++ ['\n']
      else "   File a bug report: ".data ++ url ++ ['\n']
    (url,
     [reportHeader file line, "   Template: ".data ++ name ++ ['\n']] ++
       paramLines ++ [urlLine, ['\n']])
  | Except.error e =>
    ([],
     [reportHeader file line,
      "   Error generating bug report: ".data ++ e ++ ['\n'], ['\n']])

/-- `BugReportHandle::report_bug` (lib.rs 1111-1113): the same computation
against the discarding `NoOutput` sink; only the returned string remains. -/
def report_bug (cfg : BugReportConfig) (name : Str) (params : Params)
    (file : Str) (line : Nat) (probe : Bool) : Str :=
  (report_bug_with_output cfg name params file line probe).1

/- ===== Helper lemmas for the claims ===== -/

theorem find?_of_split {α : Type} (p : α → Bool) :
    ∀ (l₁ : List α) (x : α) (l₂ : List α),
    (∀ y ∈ l₁, p y = false) → p x = true →
    (l₁ ++ x :: l₂).find? p = some x := by
  intro l₁
  induction l₁ with
  | nil => intro x l₂ _ hx; simp [List.find?_cons, hx]
  | cons y ys ih =>
    intro x l₂ hall hx
    have hy : p y = false := hall y (List.mem_cons_self y ys)
    simp only [List.cons_append, List.find?_cons, hy]
    exact ih x l₂ (fun z hz => hall z (List.mem_cons_of_mem y hz)) hx

theorem hasKey_iff (params : Params) (k : Str) :
    hasKey params k = true ↔ ∃ kv ∈ params, kv.1 = k := by
  simp [hasKey, List.any_eq_true]

theorem hasKey_erase_self (params : Params) (k : Str) :
    hasKey (eraseKey params k) k = false := by
  simp only [hasKey, eraseKey, List.any_eq_false]
  intro kv hmem
  rcases List.mem_filter.mp hmem with ⟨_, hne⟩
  simpa using hne

theorem replaceGo_fuel_irrel (pat rep : Str) :
    ∀ (f g : Nat) (s : Str), s.length ≤ f → s.length ≤ g →
    replaceGo pat rep f s = replaceGo pat rep g s := by
  intro f
  induction f with
  | zero =>
    intro g s hf _
    have : s = [] := List.length_eq_zero.mp (Nat.le_zero.mp hf)
    subst this
    cases g with
    | zero => rfl
    | succ g => simp [replaceGo]
  | succ f ih =>
    intro g s hf hg
    cases g with
    | zero =>
      have : s = [] := List.length_eq_zero.mp (Nat.le_zero.mp hg)
      subst this
      simp [replaceGo]
    | succ g =>
      simp only [replaceGo]
      by_cases hp : pat ≠ [] ∧ pat.isPrefixOf s = true
      · rw [if_pos hp, if_pos hp]
        have hple : pat.length ≤ s.length :=
          (List.isPrefixOf_iff_prefix.mp hp.2).length_le
        have hpat1 : 1 ≤ pat.length := by
          cases hpat : pat with
          | nil => exact absurd hpat hp.1
          | cons a l => simp
        have hdrop : (s.drop pat.length).length ≤ f := by
          simp only [List.length_drop]; omega
        have hdrop' : (s.drop pat.length).length ≤ g := by
          simp only [List.length_drop]; omega
        rw [ih g _ hdrop hdrop']
      · rw [if_neg hp, if_neg hp]
        cases s with
        | nil => rfl
        | cons c rest =>
          simp only [List.length_cons] at hf hg
          show c :: replaceGo pat rep f rest = c :: replaceGo pat rep g rest
          rw [ih g rest (Nat.lt_succ_iff.mp hf) (Nat.lt_succ_iff.mp hg)]

theorem replaceAll_of_not_hasSubstr :
    ∀ (s pat rep : Str), hasSubstr s pat = false → replaceAll s pat rep = s := by
  have main : ∀ (f : Nat) (s pat rep : Str), hasSubstr s pat = false →
      replaceGo pat rep f s = s := by
    intro f
    induction f with
    | zero => intro s pat rep _; rfl
    | succ f ih =>
      intro s pat rep hns
      simp only [replaceGo]
      have hpre : pat.isPrefixOf s = false := by
        cases s with
        | nil => simpa [hasSubstr] using hns
        | cons c rest =>
          simp only [hasSubstr, Bool.or_eq_false_iff] at hns
          exact hns.1
      have hcond : ¬ (pat ≠ [] ∧ pat.isPrefixOf s = true) := by
        intro h; rw [hpre] at h; exact Bool.false_ne_true h.2
      rw [if_neg hcond]
      cases s with
      | nil => rfl
      | cons c rest =>
        simp only [hasSubstr, Bool.or_eq_false_iff] at hns
        show c :: replaceGo pat rep f rest = c :: rest
        rw [ih rest pat rep hns.2]
  intro s pat rep h
  exact main s.length s pat rep h

theorem replaceAll_head_match (pat rep b : Str) (hne : pat ≠ []) :
    replaceAll (pat ++ b) pat rep = rep ++ replaceAll b pat rep := by
  have hlen : (pat ++ b).length = pat.length + b.length := List.length_append pat b
  have hpat1 : 1 ≤ pat.length := by
    cases hpat : pat with
    | nil => exact absurd hpat hne
    | cons a l => simp
  unfold replaceAll
  have hne0 : (pat ++ b).length ≠ 0 := by rw [hlen]; omega
  rcases Nat.exists_eq_succ_of_ne_zero hne0 with ⟨n, hn⟩
  rw [hn]
  simp only [replaceGo]
  have hpre : pat.isPrefixOf (pat ++ b) = true :=
    List.isPrefixOf_iff_prefix.mpr (List.prefix_append pat b)
  rw [if_pos ⟨hne, hpre⟩, List.drop_left]
  have hble : b.length ≤ n := by omega
  rw [replaceGo_fuel_irrel pat rep n b.length b hble (Nat.le_refl _)]

theorem replaceAll_head_miss (c : Char) (s pat rep : Str)
    (h : pat.isPrefixOf (c :: s) = false) :
    replaceAll (c :: s) pat rep = c :: replaceAll s pat rep := by
  unfold replaceAll
  simp only [List.length_cons, replaceGo]
  have hcond : ¬ (pat ≠ [] ∧ pat.isPrefixOf (c :: s) = true) := by
    intro hx; rw [h] at hx; exact Bool.false_ne_true hx.2
  rw [if_neg hcond]

theorem linesGo_ne_nil : ∀ (s : List Char) (cur : Str), linesGo cur s ≠ [] := by
  intro s
  induction s with
  | nil => intro cur; simp [linesGo]
  | cons c rest ih =>
    intro cur
    simp only [linesGo]
    by_cases hc : c = '\n'
    · simp [hc]
    · rw [if_neg hc]; exact ih (cur ++ [c])

theorem rustLines_eq_nil_iff (s : Str) : rustLines s = [] ↔ s = [] := by
  constructor
  · intro h
    cases hs : s with
    | nil => rfl
    | cons c rest =>
      rw [hs] at h
      exact absurd h (by simpa [rustLines] using linesGo_ne_nil (c :: rest) [])
  · intro h; subst h; rfl

/- ===== Claim theorems ===== -/

/-- C2: `encode` processes its input byte-wise — it distributes over
concatenation and on a single byte yields the byte itself when it is an
ASCII letter, digit, `-`, `.`, `_` or `~`; a `+` for a space; and `%`
followed by the two uppercase hex digits of the byte otherwise.  At the
string level it concatenates the per-character UTF-8 byte encodings.
Concretely, `encode("hello world") = "hello+world"`,
`encode("a/b?c") = "a%2Fb%3Fc"`, and
`encode("safe-chars_1.0~") = "safe-chars_1.0~"`. -/
theorem c2_encode_bytewise :
    (∀ xs ys : List Nat, encode (xs ++ ys) = encode xs ++ encode ys) ∧
    (∀ b : Nat, isUnreservedByte b = true → encode [b] = [Char.ofNat b]) ∧
    encode [0x20] = ['+'] ∧
    (∀ b : Nat, isUnreservedByte b = false → b ≠ 0x20 →
      encode [b] = ['%', hexDigitChar (b / 16 % 16), hexDigitChar (b % 16)]) ∧
    (∀ n : Nat, n < 16 → hexDigitChar n ∈ "0123456789ABCDEF".data) ∧
    (∀ s t : Str, encodeStr (s ++ t) = encodeStr s ++ encodeStr t) ∧
    (∀ c : Char, encodeStr [c] = encode (charUtf8 c)) ∧
    encode (asciiBytes "hello world") = "hello+world".data ∧
    encode (asciiBytes "a/b?c") = "a%2Fb%3Fc".data ∧
    encode (asciiBytes "safe-chars_1.0~") = "safe-chars_1.0~".data := by
  refine ⟨?_, ?_, by decide, ?_, by decide, ?_, ?_, by decide, by decide, by decide⟩
  · intro xs ys
    induction xs with
    | nil => simp [encode]
    | cons b rest ih => simp [encode, ih]
  · intro b hb
    simp [encode, encodeByte, hb]
  · intro b hb1 hb2
    simp [encode, encodeByte, hb1, hb2]
  · have hutf : ∀ s t : Str, utf8Bytes (s ++ t) = utf8Bytes s ++ utf8Bytes t := by
      intro s t
      induction s with
      | nil => simp [utf8Bytes]
      | cons c rest ih => simp [utf8Bytes, ih]
    have henc : ∀ xs ys : List Nat, encode (xs ++ ys) = encode xs ++ encode ys := by
      intro xs ys
      induction xs with
      | nil => simp [encode]
      | cons b rest ih => simp [encode, ih]
    intro s t
    simp [encodeStr, hutf, henc]
  · intro c
    simp [encodeStr, utf8Bytes, encode]

/-- C2 witness: the general clauses of `c2_encode_bytewise` instantiated at
concrete bytes. -/
theorem c2_encode_bytewise_witness :
    encode [0x41] = [Char.ofNat 0x41] ∧
    encode [0x2F] = ['%', hexDigitChar (0x2F / 16 % 16), hexDigitChar (0x2F % 16)] ∧
    encode (asciiBytes "ab" ++ asciiBytes "cd") =
      encode (asciiBytes "ab") ++ encode (asciiBytes "cd") :=
  ⟨c2_encode_bytewise.2.1 0x41 (by decide),
   c2_encode_bytewise.2.2.2.1 0x2F (by decide) (by decide),
   c2_encode_bytewise.1 (asciiBytes "ab") (asciiBytes "cd")⟩

/-- C8: the process-wide singleton is set-once — a commit into the empty
cell succeeds and stores the configuration; any commit into an occupied cell
fails with the "already initialized" error and leaves the stored
configuration exactly as the first commit left it; in general a commit never
replaces an existing value. -/
theorem c8_singleton_set_once :
    (∀ c₁ c₂ : BugReportConfig,
      buildCommit c₁ none = (Except.ok (), some c₁) ∧
      buildCommit c₂ (some c₁) =
        (Except.error "Bug reporting already initialized".data, some c₁)) ∧
    (∀ (st : GlobalConfig) (c : BugReportConfig),
      (buildCommit c st).2 = some (st.getD c)) := by
  refine ⟨fun c₁ c₂ => ⟨rfl, rfl⟩, fun st c => ?_⟩
  cases st <;> rfl

/-- C10: the handle method `generate_url` and the global-configuration
function `generate_github_url` agree on every configuration, template name
and parameter map, when the global store holds that configuration: the two
duplicated code paths compute the same function. -/
theorem c10_handle_global_equiv :
    ∀ (cfg : BugReportConfig) (name : Str) (params : Params),
    generate_github_url (some cfg) name params = generate_url cfg name params := by
  intro cfg name params
  rfl

/-- C7: template lookup order — the inline template map is consulted first,
so a name present there is served from it no matter what the file-backed map
holds; only when the name is absent from the inline map is the file-backed
map consulted (validate, parse, fill); a name absent from both yields the
error `Template '<name>' not found`, whose text contains the requested name
verbatim. -/
theorem c7_lookup_order :
    (∀ (cfg : BugReportConfig) (name : Str) (params : Params) (t : IssueTemplate),
      lookupA cfg.templates name = some t →
      generate_url cfg name params =
        Except.ok (buildUrl cfg.github_owner cfg.github_repo
          (t.fill_params params))) ∧
    (∀ (cfg : BugReportConfig) (name : Str) (params : Params) (tf : TemplateFile),
      lookupA cfg.templates name = none →
      lookupA cfg.template_files name = some tf →
      generate_url cfg name params =
        (IssueTemplate.from_template_file tf params).map
          (buildUrl cfg.github_owner cfg.github_repo)) ∧
    (∀ (cfg : BugReportConfig) (name : Str) (params : Params),
      lookupA cfg.templates name = none →
      lookupA cfg.template_files name = none →
      generate_url cfg name params =
        Except.error ("Template '".data ++ name ++ "' not found".data) ∧
      name <:+: ("Template '".data ++ name ++ "' not found".data)) := by
  refine ⟨?_, ?_, ?_⟩
  · intro cfg name params t h
    simp [generate_url, h]
    rfl
  · intro cfg name params tf h1 h2
    cases hf : IssueTemplate.from_template_file tf params with
    | ok v => simp [generate_url, h1, h2, hf, Except.map]
    | error e => simp [generate_url, h1, h2, hf, Except.map]
  · intro cfg name params h1 h2
    refine ⟨by simp [generate_url, h1, h2], ?_⟩
    exact ⟨"Template '".data, "' not found".data, by simp⟩

/-- C7 witness: a configuration with one inline template and one file-backed
template under the same name serves the inline one; an unregistered name
yields the not-found error containing that name. -/
theorem c7_lookup_order_witness :
    generate_url
        ⟨"o".data, "r".data,
          [("dup".data, ⟨"T".data, [], []⟩)],
          [("dup".data, ⟨"FileT\nfile body".data, []⟩)],
          HyperlinkMode.Auto⟩
        "dup".data [] =
      Except.ok "https://github.com/o/r/issues/new?title=T".data ∧
    generate_url
        ⟨"o".data, "r".data, [], [], HyperlinkMode.Auto⟩
        "ghost".data [] =
      Except.error "Template 'ghost' not found".data := by
  constructor
  · have h := c7_lookup_order.1
      ⟨"o".data, "r".data,
        [("dup".data, ⟨"T".data, [], []⟩)],
        [("dup".data, ⟨"FileT\nfile body".data, []⟩)],
        HyperlinkMode.Auto⟩
      "dup".data [] ⟨"T".data, [], []⟩ rfl
    rw [h]
    rfl
  · have h := (c7_lookup_order.2.2
      ⟨"o".data, "r".data, [], [], HyperlinkMode.Auto⟩
      "ghost".data [] rfl rfl).1
    rw [h]
    rfl

/-- C9: the reporter returns the generated URL on success and the empty
string on failure; on failure it writes exactly the header line, the
`Error generating bug report: <message>` line, and a trailing blank line;
the returned string does not depend on the hyperlink capability probe (the
only environment-facing input), and the silent `report_bug` (discard sink)
returns the same string as `report_bug_with_output`. -/
theorem c9_reporter :
    (∀ cfg name params file line probe url,
      generate_url cfg name params = Except.ok url →
      (report_bug_with_output cfg name params file line probe).1 = url) ∧
    (∀ cfg name params file line probe e,
      generate_url cfg name params = Except.error e →
      report_bug_with_output cfg name params file line probe =
        ([], [reportHeader file line,
              "   Error generating bug report: ".data ++ e ++ ['\n'], ['\n']])) ∧
    (∀ cfg name params file line p₁ p₂,
      (report_bug_with_output cfg name params file line p₁).1 =
        (report_bug_with_output cfg name params file line p₂).1) ∧
    (∀ cfg name params file line probe,
      report_bug cfg name params file line probe =
        (report_bug_with_output cfg name params file line probe).1) := by
  refine ⟨?_, ?_, ?_, fun _ _ _ _ _ _ => rfl⟩
  · intro cfg name params file line probe url h
    simp [report_bug_with_output, h]
  · intro cfg name params file line probe e h
    simp [report_bug_with_output, h]
  · intro cfg name params file line p₁ p₂
    cases h : generate_url cfg name params with
    | ok url => simp [report_bug_with_output, h]
    | error e => simp [report_bug_with_output, h]

/-- C9 witness: on an unregistered template the reporter returns the empty
string and writes the header, error and blank lines; on a registered one it
returns the URL. -/
theorem c9_reporter_witness :
    report_bug_with_output
        ⟨"o".data, "r".data, [], [], HyperlinkMode.Never⟩
        "ghost".data [] "main.rs".data 42 false =
      ([], [reportHeader "main.rs".data 42,
            "   Error generating bug report: ".data ++
              "Template 'ghost' not found".data ++ ['\n'], ['\n']]) ∧
    (report_bug_with_output
        ⟨"o".data, "r".data, [("t".data, ⟨"T".data, [], []⟩)], [],
          HyperlinkMode.Never⟩
        "t".data [] "main.rs".data 42 false).1 =
      "https://github.com/o/r/issues/new?title=T".data := by
  constructor
  · exact c9_reporter.2.1
      ⟨"o".data, "r".data, [], [], HyperlinkMode.Never⟩
      "ghost".data [] "main.rs".data 42 false
      "Template 'ghost' not found".data rfl
  · exact c9_reporter.1
      ⟨"o".data, "r".data, [("t".data, ⟨"T".data, [], []⟩)], [],
        HyperlinkMode.Never⟩
      "t".data [] "main.rs".data 42 false
      "https://github.com/o/r/issues/new?title=T".data rfl

/-- C3: `extract_placeholders` equals the raw occurrence scan (the stated
state machine: `{` starts accumulating identifier characters, a matching `}`
records a non-empty accumulator, any other character aborts and scanning
resumes right after it) with first-occurrence deduplication applied, so
each distinct well-formed name appears exactly once, in first-occurrence
order; the result never contains the empty name and is duplicate-free.
Concretely: the aborted `{a b}` is skipped and `{c}` still found; in
`{{x}` the inner `{` aborts the attempt and, since scanning resumes after
that `{`, nothing is found; `{}` is not recorded; a repeated `{m}` is kept
once, in first-occurrence order. -/
theorem c3_extract_placeholders :
    (∀ s : Str, extract_placeholders s = dedupGo [] (rawScan s)) ∧
    (∀ s : Str, (extract_placeholders s).Nodup) ∧
    (∀ s : Str, [] ∉ extract_placeholders s) ∧
    (∀ (s : Str) (x : Str), x ∈ extract_placeholders s → x ∈ rawScan s) ∧
    extract_placeholders ['{', 'a', ' ', 'b', '}', '{', 'c', '}'] = [['c']] ∧
    extract_placeholders ['{', '{', 'x', '}'] = [] ∧
    extract_placeholders ['{', '}'] = [] ∧
    extract_placeholders ['{', 'm', '}', ' ', '{', 'n', '}', ' ', '{', 'm', '}'] =
      [['m'], ['n']] := by
  have hkey : ∀ s : Str, extract_placeholders s = dedupGo [] (rawScan s) :=
    extract_eq_dedup_rawScan
  refine ⟨hkey, ?_, ?_, ?_, by decide, by decide, by decide, by decide⟩
  · intro s
    rw [hkey s]
    exact dedupGo_nodup (rawScan s) []
  · intro s hmem
    rw [hkey s] at hmem
    exact rawScanGo_ne_nil s.length s (dedupGo_sub (rawScan s) [] [] hmem)
  · intro s x hmem
    rw [hkey s] at hmem
    exact dedupGo_sub (rawScan s) [] x hmem

/-- C3 witness: the membership clause of `c3_extract_placeholders` at a
concrete input. -/
theorem c3_extract_placeholders_witness :
    (['c'] : Str) ∈ rawScan ['{', 'c', '}'] :=
  c3_extract_placeholders.2.2.2.1 ['{', 'c', '}'] ['c'] (by decide)

/-- C1: the generated URL is the base
`https://github.com/<owner>/<repo>/issues/new` followed by query parameters
only for the non-empty fields among title, body, labels, in that fixed
order, each value URL-encoded, labels joined with a literal `,` before
being encoded as one unit; when all three fields are empty nothing (in
particular no `?`) is appended.  Concretely the octocat example yields
exactly `...?title=Bug%3A+A+B`, and labels `["bug","crash"]` appear as
`labels=bug%2Ccrash`. -/
theorem c1_url_builder :
    (∀ (owner repo : Str) (t : IssueTemplate),
      t.title = [] → t.body = [] → t.labels = [] →
      buildUrl owner repo t = baseUrl owner repo) ∧
    (∀ (owner repo : Str) (t : IssueTemplate),
      t.title ≠ [] → t.body ≠ [] → t.labels ≠ [] →
      buildUrl owner repo t = baseUrl owner repo ++
        '?' :: ("title=".data ++ encodeStr t.title ++
          '&' :: ("body=".data ++ encodeStr t.body ++
            '&' :: ("labels=".data ++ encodeStr (joinSep [','] t.labels))))) ∧
    (∀ (owner repo : Str) (t : IssueTemplate),
      t.title ≠ [] → t.body = [] → t.labels = [] →
      buildUrl owner repo t = baseUrl owner repo ++
        '?' :: ("title=".data ++ encodeStr t.title)) ∧
    generate_url
        ⟨"octocat".data, "Hello-World".data,
          [("bug".data, ⟨"Bug: {x}".data, [], []⟩)], [], HyperlinkMode.Auto⟩
        "bug".data [("x".data, "A B".data)] =
      Except.ok
        "https://github.com/octocat/Hello-World/issues/new?title=Bug%3A+A+B".data ∧
    buildUrl "o".data "r".data ⟨[], [], ["bug".data, "crash".data]⟩ =
      "https://github.com/o/r/issues/new?labels=bug%2Ccrash".data := by
  refine ⟨?_, ?_, ?_, rfl, by decide⟩
  · intro owner repo t h1 h2 h3
    simp [buildUrl, queryParams, h1, h2, h3]
  · intro owner repo t h1 h2 h3
    simp [buildUrl, queryParams, h1, h2, h3, joinSep]
  · intro owner repo t h1 h2 h3
    simp [buildUrl, queryParams, h1, h2, h3, joinSep]

/-- C1 witness: the conditional clauses of `c1_url_builder` at concrete
templates. -/
theorem c1_url_builder_witness :
    buildUrl "o".data "r".data ⟨[], [], []⟩ = baseUrl "o".data "r".data ∧
    buildUrl "o".data "r".data ⟨['T'], ['B'], [['l']]⟩ =
      baseUrl "o".data "r".data ++
        '?' :: ("title=".data ++ encodeStr ['T'] ++
          '&' :: ("body=".data ++ encodeStr ['B'] ++
            '&' :: ("labels=".data ++ encodeStr (joinSep [','] [['l']])))) ∧
    buildUrl "o".data "r".data ⟨['T'], [], []⟩ =
      baseUrl "o".data "r".data ++ '?' :: ("title=".data ++ encodeStr ['T']) :=
  ⟨c1_url_builder.1 "o".data "r".data ⟨[], [], []⟩ rfl rfl rfl,
   c1_url_builder.2.1 "o".data "r".data ⟨['T'], ['B'], [['l']]⟩
     (by decide) (by decide) (by decide),
   c1_url_builder.2.2.1 "o".data "r".data ⟨['T'], [], []⟩
     (by decide) rfl rfl⟩

/-- `validate_params` succeeds exactly when the parameter key set equals the
placeholder set of the content. -/
theorem validate_unfold (tf : TemplateFile) (params : Params) :
    tf.validate_params params =
      (match (extract_placeholders tf.content).find?
          (fun ph => !(hasKey params ph)) with
      | some ph => Except.error ("Missing required parameter: ".data ++ ph)
      | none =>
        match params.find?
            (fun kv => !((extract_placeholders tf.content).contains kv.1)) with
        | some kv => Except.error ("Unused parameter: ".data ++ kv.1)
        | none => Except.ok ()) := rfl

theorem validate_ok_iff (tf : TemplateFile) (params : Params) :
    tf.validate_params params = Except.ok () ↔
      (∀ x : Str, hasKey params x = true ↔ x ∈ extract_placeholders tf.content) := by
  constructor
  · intro h
    rw [validate_unfold] at h
    cases h1 : (extract_placeholders tf.content).find?
        (fun ph => !(hasKey params ph)) with
    | some ph => rw [h1] at h; simp at h
    | none =>
      rw [h1] at h
      cases h2 : params.find?
          (fun kv => !((extract_placeholders tf.content).contains kv.1)) with
      | some kv => rw [h2] at h; simp at h
      | none =>
        have hall1 := List.find?_eq_none.mp h1
        have hall2 := List.find?_eq_none.mp h2
        intro x
        constructor
        · intro hx
          rcases (hasKey_iff params x).mp hx with ⟨kv, hkv, hfst⟩
          have hc := hall2 kv hkv
          simp at hc
          rw [← hfst]
          exact hc
        · intro hx
          have hc := hall1 x hx
          simpa using hc
  · intro hiff
    have h1 : (extract_placeholders tf.content).find?
        (fun ph => !(hasKey params ph)) = none := by
      apply List.find?_eq_none.mpr
      intro ph hmem
      simp [(hiff ph).mpr hmem]
    have h2 : params.find?
        (fun kv => !((extract_placeholders tf.content).contains kv.1)) = none := by
      apply List.find?_eq_none.mpr
      intro kv hkv
      have hk : hasKey params kv.1 = true :=
        (hasKey_iff params kv.1).mpr ⟨kv, hkv, rfl⟩
      have := (hiff kv.1).mp hk
      simp [this]
    rw [validate_unfold, h1, h2]

/-- C4: `validate_params` succeeds exactly when the parameter key set equals
the placeholder set of the content; when some placeholder has no key it
reports `Missing required parameter:` naming the first such placeholder in
scan order; when all placeholders are covered but some key is not a
placeholder it reports `Unused parameter:` naming the first such key in map
iteration order; and from an exactly-matching parameter set, removing any
required key or adding any fresh key makes validation fail. -/
theorem c4_validate_params :
    (∀ (tf : TemplateFile) (params : Params),
      tf.validate_params params = Except.ok () ↔
        (∀ x : Str, hasKey params x = true ↔
          x ∈ extract_placeholders tf.content)) ∧
    (∀ (tf : TemplateFile) (params : Params) (l₁ : List Str) (ph : Str)
        (l₂ : List Str),
      extract_placeholders tf.content = l₁ ++ ph :: l₂ →
      (∀ p ∈ l₁, hasKey params p = true) → hasKey params ph = false →
      tf.validate_params params =
        Except.error ("Missing required parameter: ".data ++ ph)) ∧
    (∀ (tf : TemplateFile) (params : Params),
      (∀ ph ∈ extract_placeholders tf.content, hasKey params ph = true) →
      ∀ (l₁ : Params) (kv : Str × Str) (l₂ : Params),
      params = l₁ ++ kv :: l₂ →
      (∀ kv' ∈ l₁, kv'.1 ∈ extract_placeholders tf.content) →
      kv.1 ∉ extract_placeholders tf.content →
      tf.validate_params params =
        Except.error ("Unused parameter: ".data ++ kv.1)) ∧
    (∀ (tf : TemplateFile) (params : Params),
      tf.validate_params params = Except.ok () →
      (∀ k ∈ params.map Prod.fst,
        tf.validate_params (eraseKey params k) ≠ Except.ok ()) ∧
      (∀ k v, hasKey params k = false →
        tf.validate_params ((k, v) :: params) ≠ Except.ok ())) := by
  refine ⟨validate_ok_iff, ?_, ?_, ?_⟩
  · intro tf params l₁ ph l₂ hsplit hall hph
    have h1 : (extract_placeholders tf.content).find?
        (fun p => !(hasKey params p)) = some ph := by
      rw [hsplit]
      apply find?_of_split
      · intro y hy; simp [hall y hy]
      · simp [hph]
    rw [validate_unfold, h1]
  · intro tf params hcover l₁ kv l₂ hsplit hprev hnot
    have h1 : (extract_placeholders tf.content).find?
        (fun p => !(hasKey params p)) = none := by
      apply List.find?_eq_none.mpr
      intro ph hmem
      simp [hcover ph hmem]
    have h2 : params.find?
        (fun kv => !((extract_placeholders tf.content).contains kv.1)) = some kv := by
      rw [hsplit]
      apply find?_of_split
      · intro kv' hkv'
        simpa using hprev kv' hkv'
      · simpa using hnot
    rw [validate_unfold, h1, h2]
  · intro tf params hok
    have hiff := (validate_ok_iff tf params).mp hok
    constructor
    · intro k hk hok'
      have hiff' := (validate_ok_iff tf (eraseKey params k)).mp hok'
      have hkk : hasKey params k = true := by
        rcases List.mem_map.mp hk with ⟨kv, hkv, hfst⟩
        exact (hasKey_iff params k).mpr ⟨kv, hkv, hfst⟩
      have hph : k ∈ extract_placeholders tf.content := (hiff k).mp hkk
      have hbad : hasKey (eraseKey params k) k = true := (hiff' k).mpr hph
      rw [hasKey_erase_self] at hbad
      exact Bool.false_ne_true hbad
    · intro k v hnk hok'
      have hiff' := (validate_ok_iff tf ((k, v) :: params)).mp hok'
      have hkk : hasKey ((k, v) :: params) k = true := by simp [hasKey]
      have hph : k ∈ extract_placeholders tf.content := (hiff' k).mp hkk
      have hbad : hasKey params k = true := (hiff k).mpr hph
      rw [hnk] at hbad
      exact Bool.false_ne_true hbad

/-- C4 witness: the error-naming and removal clauses of `c4_validate_params`
at concrete templates and parameter maps. -/
theorem c4_validate_params_witness :
    (TemplateFile.mk "Bug: {component}\nError: {message}".data []).validate_params
        [("component".data, "UI".data)] =
      Except.error ("Missing required parameter: ".data ++ "message".data) ∧
    (TemplateFile.mk "Bug: {component}".data []).validate_params
        [("component".data, "UI".data), ("extra".data, "x".data)] =
      Except.error ("Unused parameter: ".data ++ "extra".data) ∧
    (TemplateFile.mk "Bug: {component}".data []).validate_params
        (eraseKey [("component".data, "UI".data)] "component".data) ≠
      Except.ok () := by
  refine ⟨?_, ?_, ?_⟩
  · exact c4_validate_params.2.1
      (TemplateFile.mk "Bug: {component}\nError: {message}".data [])
      [("component".data, "UI".data)]
      ["component".data] "message".data [] (by decide) (by decide) (by decide)
  · exact c4_validate_params.2.2.1
      (TemplateFile.mk "Bug: {component}".data [])
      [("component".data, "UI".data), ("extra".data, "x".data)]
      (by decide)
      [("component".data, "UI".data)] ("extra".data, "x".data) []
      rfl (by decide) (by decide)
  · exact (c4_validate_params.2.2.2
      (TemplateFile.mk "Bug: {component}".data [])
      [("component".data, "UI".data)] rfl).1
      "component".data (by decide)

/-- C5: `fill_params` returns a new template whose title and body are the
input title and body with, for each map entry in turn, every literal
occurrence of `{key}` replaced by that key's value (Rust `str::replace`:
leftmost, non-overlapping, all occurrences — characterized below by its
three defining properties), while the labels pass through unchanged; the
original template is a separate, unmodified value.  Concretely, filling
`"Application Crash: {error_type}"` with the three-parameter map of the
claim yields `"Application Crash: NullPointerException"`. -/
theorem c5_fill_params :
    (∀ (t : IssueTemplate) (params : Params),
      (t.fill_params params).labels = t.labels) ∧
    (∀ (t : IssueTemplate) (params : Params),
      (t.fill_params params).title =
        params.foldl (fun s kv => replaceAll s (placeholderOf kv.1) kv.2) t.title ∧
      (t.fill_params params).body =
        params.foldl (fun s kv => replaceAll s (placeholderOf kv.1) kv.2) t.body) ∧
    (∀ s pat rep : Str, hasSubstr s pat = false → replaceAll s pat rep = s) ∧
    (∀ pat rep b : Str, pat ≠ [] →
      replaceAll (pat ++ b) pat rep = rep ++ replaceAll b pat rep) ∧
    (∀ (c : Char) (s pat rep : Str), pat.isPrefixOf (c :: s) = false →
      replaceAll (c :: s) pat rep = c :: replaceAll s pat rep) ∧
    (IssueTemplate.mk "Application Crash: {error_type}".data [] []).fill_params
        [("error_type".data, "NullPointerException".data),
         ("function".data, "calc".data), ("line".data, "42".data)] =
      IssueTemplate.mk "Application Crash: NullPointerException".data [] [] := by
  exact ⟨fun t params => rfl, fun t params => ⟨rfl, rfl⟩,
    replaceAll_of_not_hasSubstr, replaceAll_head_match, replaceAll_head_miss,
    by decide⟩

/-- C5 witness: the replacement-characterization clauses of `c5_fill_params`
at concrete strings. -/
theorem c5_fill_params_witness :
    replaceAll "no braces here".data "{k}".data "v".data = "no braces here".data ∧
    replaceAll ("{k}".data ++ " tail".data) "{k}".data "v".data =
      "v".data ++ replaceAll " tail".data "{k}".data "v".data ∧
    replaceAll ('x' :: "{k}".data) "{k}".data "v".data =
      'x' :: replaceAll "{k}".data "{k}".data "v".data :=
  ⟨c5_fill_params.2.2.1 "no braces here".data "{k}".data "v".data (by decide),
   c5_fill_params.2.2.2.1 "{k}".data "v".data " tail".data (by decide),
   c5_fill_params.2.2.2.2.1 'x' "{k}".data "{k}".data "v".data (by decide)⟩

/-- C6 counterexample: for content `" Bug\nx"` the first line is `" Bug"`,
but `parse` produces the trimmed title `"Bug"`, so the title is not the
first line of the content as claimed. -/
theorem c6_parse_counterexample :
    (TemplateFile.mk " Bug\nx".data []).parse =
      Except.ok (IssueTemplate.mk "Bug".data ['x'] []) ∧
    rustLines " Bug\nx".data = [" Bug".data, ['x']] ∧
    ("Bug".data : Str) ≠ " Bug".data := ⟨rfl, rfl, by decide⟩

/-- C6 (amended): `parse` fails exactly when the content has no lines
(i.e. is empty) or the first line is blank after trimming; otherwise it
succeeds with title the first line *trimmed* and body the remaining lines
joined by newline *and trimmed*, the labels carried over; parsing is a pure
function of the template file, hence repeatable. -/
theorem c6_parse_amended :
    (∀ s : Str, rustLines s = [] ↔ s = []) ∧
    (∀ tf : TemplateFile, rustLines tf.content = [] →
      tf.parse = Except.error "Template file is empty".data) ∧
    (∀ (tf : TemplateFile) (first : Str) (rest : List Str),
      rustLines tf.content = first :: rest → trim first = [] →
      tf.parse = Except.error "Template must have a title on the first line".data) ∧
    (∀ (tf : TemplateFile) (first : Str) (rest : List Str),
      rustLines tf.content = first :: rest → trim first ≠ [] →
      tf.parse = Except.ok
        (IssueTemplate.mk (trim first) (trim (joinSep ['\n'] rest)) tf.labels)) ∧
    (∀ tf : TemplateFile, (∃ e, tf.parse = Except.error e) ↔
      (rustLines tf.content = [] ∨
        ∃ first rest, rustLines tf.content = first :: rest ∧ trim first = [])) ∧
    (∀ tf₁ tf₂ : TemplateFile, tf₁.content = tf₂.content →
      tf₁.labels = tf₂.labels → tf₁.parse = tf₂.parse) := by
  have hempty : ∀ tf : TemplateFile, rustLines tf.content = [] →
      tf.parse = Except.error "Template file is empty".data := by
    intro tf h
    simp [TemplateFile.parse, h]
  have hblank : ∀ (tf : TemplateFile) (first : Str) (rest : List Str),
      rustLines tf.content = first :: rest → trim first = [] →
      tf.parse = Except.error "Template must have a title on the first line".data := by
    intro tf first rest h ht
    simp [TemplateFile.parse, h, ht]
  have hok : ∀ (tf : TemplateFile) (first : Str) (rest : List Str),
      rustLines tf.content = first :: rest → trim first ≠ [] →
      tf.parse = Except.ok
        (IssueTemplate.mk (trim first) (trim (joinSep ['\n'] rest)) tf.labels) := by
    intro tf first rest h ht
    simp [TemplateFile.parse, h, ht]
  refine ⟨rustLines_eq_nil_iff, hempty, hblank, hok, ?_, ?_⟩
  · intro tf
    constructor
    · intro he
      rcases he with ⟨e, he⟩
      cases hl : rustLines tf.content with
      | nil => exact Or.inl rfl
      | cons first rest =>
        by_cases ht : trim first = []
        · exact Or.inr ⟨first, rest, rfl, ht⟩
        · rw [hok tf first rest hl ht] at he
          exact absurd he (by simp)
    · intro hd
      rcases hd with h | ⟨first, rest, hl, ht⟩
      · exact ⟨_, hempty tf h⟩
      · exact ⟨_, hblank tf first rest hl ht⟩
  · intro tf₁ tf₂ hc hl
    cases tf₁; cases tf₂
    simp only at hc hl
    subst hc; subst hl
    rfl

/-- C6 witness: the clauses of `c6_parse_amended` at concrete template
files. -/
theorem c6_parse_amended_witness :
    (TemplateFile.mk [] []).parse = Except.error "Template file is empty".data ∧
    (TemplateFile.mk " \nx".data []).parse =
      Except.error "Template must have a title on the first line".data ∧
    (TemplateFile.mk " Bug\n x ".data ['l' :: []]).parse =
      Except.ok (IssueTemplate.mk (trim " Bug".data)
        (trim (joinSep ['\n'] [" x ".data])) ['l' :: []]) :=
  ⟨c6_parse_amended.2.1 (TemplateFile.mk [] []) rfl,
   c6_parse_amended.2.2.1 (TemplateFile.mk " \nx".data []) " ".data [['x']]
     rfl (by decide),
   c6_parse_amended.2.2.2.1 (TemplateFile.mk " Bug\n x ".data ['l' :: []])
     " Bug".data [" x ".data] rfl (by decide)⟩
